import Mathlib

set_option autoImplicit false

/-!
Shallow embedding of graphgallery/gallery/trainer.py.

The module wraps a deep-learning framework: tensor computation, the actual
callback objects and the filesystem are external to the file, so they are
modelled as explicit parameters (environment functions) and as event traces.
Python dictionaries (the CfgNode configuration trees) are modelled as
association lists of string keys and string values, and Python exceptions as
an Except value.
-/

universe u

/-- The two RuntimeError messages raised by the Trainer lifecycle guards:
line 140 of trainer.py (please call trainer.process() first) and
lines 177, 260 and 316 (you must compile your model before
training/testing/predicting, use trainer.build()). -/
inductive RtMsg
  | processFirst
  | buildFirst
  deriving Repr, DecidableEq

/-- Python exceptions that the embedded code can raise. -/
inductive Exc
  | runtimeError (msg : RtMsg)
  | nameError (n : String)
  | indexError
  | userException
  deriving Repr, DecidableEq

deriving instance DecidableEq for Except

/-- A framework model object held in Trainer.model.  Only the features the
trainer code observes are kept: its Python truthiness (test and predict use
the check `if not self.model`) and its stop_training flag. -/
structure PyModel where
  truthy : Bool
  stop_training : Bool
  deriving Repr, DecidableEq

/-- Python truthiness of the `self.model` slot: None is falsy, an object is
as truthy as its `__bool__`. -/
def pyTruthy : Option PyModel → Bool
  | none => false
  | some m => m.truthy

/-- A batch yielded by a Sequence: either a bare value or a Python
list/tuple of values (trainer.py line 61 treats list and tuple alike). -/
inductive Batch (α : Type u)
  | atom (x : α)
  | seq (xs : List α)
  deriving Repr, DecidableEq

/-- Python indexing `xs[i]` with negative-index support; raises IndexError
when out of range. -/
def pyIndex {α : Type u} (xs : List α) (i : Int) : Except Exc α :=
  let j : Int := if i < 0 then i + xs.length else i
  match xs.get? j.toNat with
  | some x => if 0 ≤ j then Except.ok x else Except.error Exc.indexError
  | none => Except.error Exc.indexError

/-- trainer.py lines 59-68: unravel_batch.  `inputs = batch[0]`,
`labels = batch[1]`, and `out_weight = batch[-1]` when `len(batch) > 2`;
a non-list non-tuple batch is returned whole as the inputs. -/
def unravel_batch {α : Type u} : Batch α → Except Exc (α × Option α × Option α)
  | Batch.atom b => Except.ok (b, none, none)
  | Batch.seq xs =>
    match pyIndex xs 0 with
    | Except.error e => Except.error e
    | Except.ok inputs =>
      match pyIndex xs 1 with
      | Except.error e => Except.error e
      | Except.ok labels =>
        if 2 < xs.length then
          match pyIndex xs (-1) with
          | Except.error e => Except.error e
          | Except.ok ow => Except.ok (inputs, some labels, some ow)
        else Except.ok (inputs, some labels, none)

/-- Python str.startswith, character-wise. -/
def pyStartsWith (s p : String) : Bool := p.data.isPrefixOf s.data

/-- Python str.endswith, character-wise. -/
def pyEndsWith (s p : String) : Bool := p.data.isSuffixOf s.data

/-- Python slicing s[n:], character-wise. -/
def strDrop (s : String) (n : Nat) : String := String.mk (s.data.drop n)

/-! ## Configuration dictionaries as association lists -/

/-- Whether the dictionary has an entry for key k. -/
def hasKey (c : List (String × String)) (k : String) : Bool :=
  c.any (fun p => p.1 == k)

/-- First-match lookup, the reading of `cfg.k`. -/
def lookupKey : List (String × String) → String → Option String
  | [], _ => none
  | (k', v) :: rest, k => if k' == k then some v else lookupKey rest k

/-- Setting one key of a dictionary: replace the value in place when the key
exists (dictionaries have unique keys, so the first occurrence), append the
entry otherwise. -/
def setKey : List (String × String) → String → String → List (String × String)
  | [], k, v => [(k, v)]
  | (k0, v0) :: rest, k, v =>
    if k0 == k then (k, v) :: rest else (k0, v0) :: setKey rest k v

/-- CfgNode.merge_from_dict, modelled as setting every key of the keyword
dictionary in order. -/
def mergeFromDict (c kwargs : List (String × String)) : List (String × String) :=
  kwargs.foldl (fun acc p => setKey acc p.1 p.2) c

/-- The value the merged dictionary would take from the keyword list alone:
the last occurrence of the key wins. -/
def lookupLast (kwargs : List (String × String)) (k : String) : Option String :=
  lookupKey kwargs.reverse k

/-- Left-biased choice between two optional values. -/
def orO (a b : Option String) : Option String :=
  match a with
  | some v => some v
  | none => b

/-! ## The Trainer state and the process/build lifecycle -/

/-- The mutable attributes of a Trainer that the process/build lifecycle
reads and writes.  `transform` models the attribute dictionary of
`self.transform`, and the cfg fields model `self.cfg.process` and
`self.cfg.model`. -/
structure Trainer where
  is_processed : Bool
  model : Option PyModel
  transform : List (String × String)
  cfgProcess : List (String × String)
  cfgModel : List (String × String)
  deriving Repr, DecidableEq

/-- trainer.py lines 100-102: the loop
`for k, v in cfg.items(): if k.endswith("transform"): setattr(self.transform, k, gf.get(v))`,
threading the transform attribute dictionary through the iteration.
`g` stands for the external function `gf.get`. -/
def applyTransforms (g : String → String) (t : List (String × String))
    (cfg : List (String × String)) : List (String × String) :=
  cfg.foldl (fun acc p => if pyEndsWith p.1 "transform" then setKey acc p.1 (g p.2) else acc) t

/-- trainer.py lines 81-105: Trainer.process.  The external call
`_, kwargs = gf.wrapper(self.process_step)(**kwargs)` is modelled by taking
the left-over keyword dictionary `leftover` as an input; they are merged into
cfg.process, every cfg key ending in "transform" is written through gf.get
onto self.transform, is_processed is set, and self is returned. -/
def Trainer.process (self : Trainer) (leftover : List (String × String))
    (g : String → String) : Trainer :=
  let cfg := mergeFromDict self.cfgProcess leftover
  let tr := applyTransforms g self.transform cfg
  { self with cfgProcess := cfg, transform := tr, is_processed := true }

/-- trainer.py lines 110-149: Trainer.build.  The guard on is_processed
raises RuntimeError before anything else; afterwards the external builder
(modelled by its produced model `builtModel` and left-over keyword
dictionary `builderKwargs`) sets self.model and merges the left-overs into
cfg.model.  Device placement is elided. -/
def Trainer.build (self : Trainer) (builtModel : PyModel)
    (builderKwargs : List (String × String)) : Except Exc Trainer :=
  if !self.is_processed then Except.error (Exc.runtimeError RtMsg.processFirst)
  else Except.ok { self with
    model := some builtModel,
    cfgModel := mergeFromDict self.cfgModel builderKwargs }

/-- trainer.py lines 151-162: Trainer.build_from_model.  Same guard; then the
given model is installed and cfg.model.build_from_model is set to False. -/
def Trainer.build_from_model (self : Trainer) (m : PyModel) : Except Exc Trainer :=
  if !self.is_processed then Except.error (Exc.runtimeError RtMsg.processFirst)
  else Except.ok { self with
    model := some m,
    cfgModel := setKey self.cfgModel "build_from_model" "False" }

/-! ## Training configuration -/

/-- The cfg.train.EarlyStopping node (the fields setup_callbacks reads). -/
structure EsCfg where
  enabled : Bool
  monitor : String
  deriving Repr, DecidableEq

/-- The cfg.train.ModelCheckpoint node (the fields the trainer reads). -/
structure CkptCfg where
  enabled : Bool
  monitor : String
  save_best_only : Bool
  save_weights_only : Bool
  remove_weights : Bool
  path : String
  deriving Repr, DecidableEq

/-- A configuration node of which only `enabled` is read
(cfg.train.TerminateOnNaN and cfg.train.TensorBoard). -/
structure FlagCfg where
  enabled : Bool
  deriving Repr, DecidableEq

/-- The cfg.train node (the fields the trainer reads; the keyword merge of
train is taken as already applied). -/
structure TrainCfg where
  epochs : Nat
  verbose : Nat
  ModelCheckpoint : CkptCfg
  EarlyStopping : EsCfg
  TerminateOnNaN : FlagCfg
  TensorBoard : FlagCfg
  deriving Repr, DecidableEq

/-- The kinds of callback objects the trainer can put into the framework
CallbackList. -/
inductive CallbackKind
  | history
  | earlyStopping
  | modelCheckpoint
  | terminateOnNaN
  | tensorBoard
  deriving Repr, DecidableEq

/-- The UserWarning of trainer.py lines 448-453: monitor old replaced by
monitor new on the given callback configuration. -/
inductive WarnEv
  | monitorFallback (cb : CallbackKind) (old new : String)
  deriving Repr, DecidableEq

/-- trainer.py lines 445-449 for the ModelCheckpoint config: without
validation, an enabled checkpoint whose monitor starts with val_ has the
4-character prefix stripped and a UserWarning emitted. -/
def monitorFallbackCkpt (validation : Bool) (ckpt : CkptCfg) : CkptCfg × List WarnEv :=
  if !validation && ckpt.enabled && pyStartsWith ckpt.monitor "val_" then
    let m := strDrop ckpt.monitor 4
    ({ ckpt with monitor := m },
     [WarnEv.monitorFallback CallbackKind.modelCheckpoint ckpt.monitor m])
  else (ckpt, [])

/-- trainer.py lines 450-453, the same fallback for the EarlyStopping
config. -/
def monitorFallbackEs (validation : Bool) (es : EsCfg) : EsCfg × List WarnEv :=
  if !validation && es.enabled && pyStartsWith es.monitor "val_" then
    let m := strDrop es.monitor 4
    ({ es with monitor := m },
     [WarnEv.monitorFallback CallbackKind.earlyStopping es.monitor m])
  else (es, [])

/-- trainer.py lines 465-466: the checkpoint path gets the backend file
extension appended when it does not already end with it. -/
def appendExt (ckpt : CkptCfg) (ext : String) : CkptCfg :=
  if !(pyEndsWith ckpt.path ext) then { ckpt with path := ckpt.path ++ ext } else ckpt

/-- trainer.py lines 440-484: setup_callbacks.  Mutates the cfg (monitor
fallbacks and checkpoint path extension), appends the enabled callbacks in
source order (EarlyStopping, ModelCheckpoint, TerminateOnNaN, TensorBoard)
to the given list, and reports the warnings emitted.  `ext` stands for the
external gg.file_ext(). -/
def setup_callbacks (cfg : TrainCfg) (callbacks : List CallbackKind)
    (validation : Bool) (ext : String) : TrainCfg × List CallbackKind × List WarnEv :=
  let ckw := monitorFallbackCkpt validation cfg.ModelCheckpoint
  let esw := monitorFallbackEs validation cfg.EarlyStopping
  let cbs1 := callbacks ++ (if esw.1.enabled then [CallbackKind.earlyStopping] else [])
  let ckpt2 := if ckw.1.enabled then appendExt ckw.1 ext else ckw.1
  let cbs2 := cbs1 ++ (if ckw.1.enabled then [CallbackKind.modelCheckpoint] else [])
  let cbs3 := cbs2 ++ (if cfg.TerminateOnNaN.enabled then [CallbackKind.terminateOnNaN] else [])
  let cbs4 := cbs3 ++ (if cfg.TensorBoard.enabled then [CallbackKind.tensorBoard] else [])
  ({ cfg with ModelCheckpoint := ckpt2, EarlyStopping := esw.1 }, cbs4, ckw.2 ++ esw.2)

/-! ## The training loop as an event trace -/

/-- Observable events of a train() call: CallbackList invocations, console
output, checkpoint loads and the finally-block cleanup call. -/
inductive Ev
  | onTrainBegin
  | onEpochBegin (e : Nat)
  | onTrainBatchBegin (b : Nat)
  | onTrainBatchEnd (b : Nat)
  | onEpochEnd (e : Nat)
  | onTrainEnd
  | printTraining
  | progbarUpdate (n : Nat)
  | epochHeaderPrint (e : Nat)
  | earlyStopMsg (e : Nat)
  | loadWeights (p : String)
  | loadModel (p : String)
  | removeWeightsCall
  deriving Repr, DecidableEq

/-- How one epoch body ends: fall through to the next epoch, break, or
propagate an exception. -/
inductive Control
  | next
  | brk
  | exc (e : Exc)
  deriving Repr, DecidableEq

/-- How the whole epoch loop ends. -/
inductive LoopExit
  | completed
  | broke
  | raised (e : Exc)
  deriving Repr, DecidableEq

/-- The environment of a train() call: what the framework callbacks do to
model.stop_training after each epoch (None = leave it unchanged), whether
the user train_step raises at an epoch, and len(train_data). -/
structure TrainEnv where
  setStop : Nat → Option Bool
  stepRaises : Nat → Bool
  numBatches : Nat

/-- The value of model.stop_training at the end-of-epoch check of epoch e:
the last value a callback set it to, and False before any callback touched
it, because train resets it to False before the loop (trainer.py line 200). -/
def stopTrainingAt (setStop : Nat → Option Bool) : Nat → Bool
  | 0 => (setStop 0).getD false
  | e + 1 => (setStop (e + 1)).getD (stopTrainingAt setStop e)

/-- The local names bound in Trainer.train by the time the per-epoch
reporting branch at trainer.py line 234 runs (the method parameters and
every name assigned in the body).  The name epochs is not among them. -/
def trainLocals : List String :=
  ["self", "train_data", "val_data", "kwargs", "cache", "cfg", "ckpt_cfg",
   "es_cfg", "pb_cfg", "model", "validation", "callbacks", "history",
   "verbose", "progbar", "logs", "epoch", "train_logs", "valid_logs"]

/-- Python name resolution inside train: a name outside the locals raises
NameError. -/
def lookupName (n : String) : Except Exc String :=
  if trainLocals.contains n then Except.ok n else Except.error (Exc.nameError n)

/-- trainer.py lines 214-241, the body of one iteration of
`for epoch in range(cfg.epochs)`: the callback invocations, the train step,
the reporting branch (whose verbose greater than 2 arm evaluates the
f-string referencing epoch and then the unbound name epochs), and the
stop_training break check. -/
def epochBody (cfg : TrainCfg) (env : TrainEnv) (e : Nat) : List Ev × Control :=
  let evs0 := [Ev.onEpochBegin e, Ev.onTrainBatchBegin 0]
  if env.stepRaises e then (evs0, Control.exc Exc.userException)
  else
    let evs1 := evs0 ++ [Ev.onTrainBatchEnd env.numBatches, Ev.onEpochEnd e]
    if 2 < cfg.verbose then
      match lookupName "epoch" >>= fun _ => lookupName "epochs" with
      | Except.error ex => (evs1, Control.exc ex)
      | Except.ok _ =>
        let evs2 := evs1 ++ [Ev.epochHeaderPrint e, Ev.progbarUpdate env.numBatches]
        if stopTrainingAt env.setStop e then (evs2 ++ [Ev.earlyStopMsg e], Control.brk)
        else (evs2, Control.next)
    else
      let evs2 := evs1 ++ (if 0 < cfg.verbose then [Ev.progbarUpdate (e + 1)] else [])
      if stopTrainingAt env.setStop e then (evs2 ++ [Ev.earlyStopMsg e], Control.brk)
      else (evs2, Control.next)

/-- The epoch loop from start index s with fuel remaining iterations,
accumulating the event trace and the loop exit. -/
def runEpochs (cfg : TrainCfg) (env : TrainEnv) : Nat → Nat → List Ev × LoopExit
  | _, 0 => ([], LoopExit.completed)
  | s, fuel + 1 =>
    match epochBody cfg env s with
    | (evs, Control.exc ex) => (evs, LoopExit.raised ex)
    | (evs, Control.brk) => (evs, LoopExit.broke)
    | (evs, Control.next) =>
      let r := runEpochs cfg env (s + 1) fuel
      (evs ++ r.1, r.2)

/-- The value train returns on success: the History callback object
appended to the CallbackList at trainer.py line 197. -/
inductive RetVal
  | historyObj
  deriving Repr, DecidableEq

/-- Everything observable about one train() call. -/
structure TrainOutput where
  events : List Ev
  callbacks : List CallbackKind
  warnings : List WarnEv
  cfg : TrainCfg
  modelReplaced : Option String
  result : Except Exc RetVal
  deriving Repr, DecidableEq

/-- trainer.py lines 167-255: Trainer.train.  The keyword merge into
cfg.train is taken as already applied to `cfg`; `model` is self.model.
After the model-presence guard, the callbacks are set up, stop_training is
reset (reflected in stopTrainingAt defaulting to False), the epoch loop
runs, on_train_end and the checkpoint restore happen when no exception was
raised, and the finally block calls remove_weights when the checkpoint is
enabled with remove_weights. -/
def train (model : Option PyModel) (cfg : TrainCfg) (env : TrainEnv)
    (validation : Bool) (ext : String) : TrainOutput :=
  match model with
  | none =>
    { events := [], callbacks := [], warnings := [], cfg := cfg,
      modelReplaced := none,
      result := Except.error (Exc.runtimeError RtMsg.buildFirst) }
  | some _ =>
    let scb := setup_callbacks cfg [CallbackKind.history] validation ext
    let cfg1 := scb.1
    let ckpt := cfg1.ModelCheckpoint
    let preEvs := if 0 < cfg1.verbose then [Ev.printTraining] else []
    let run := runEpochs cfg1 env 0 cfg1.epochs
    let post : List Ev × Option String × Except Exc RetVal :=
      match run.2 with
      | LoopExit.raised ex => ([], none, Except.error ex)
      | _ =>
        ([Ev.onTrainEnd] ++
           (if ckpt.enabled then
              (if ckpt.save_weights_only then [Ev.loadWeights ckpt.path]
               else [Ev.loadModel ckpt.path])
            else []),
         (if ckpt.enabled && !ckpt.save_weights_only then some ckpt.path else none),
         Except.ok RetVal.historyObj)
    let finEvs := if ckpt.enabled && ckpt.remove_weights then [Ev.removeWeightsCall] else []
    { events := preEvs ++ [Ev.onTrainBegin] ++ run.1 ++ post.1 ++ finEvs,
      callbacks := scb.2.1,
      warnings := scb.2.2,
      cfg := cfg1,
      modelReplaced := post.2.1,
      result := post.2.2 }

/-- What test() produces when it runs: the logs dictionary. -/
inductive TestOutcome
  | logsReturned
  deriving Repr, DecidableEq

/-- trainer.py lines 257-285: Trainer.test.  Only the model-presence guard
`if not self.model` is modelled; the body (cfg merge, sequence, progress
bar, test_step) is abstracted to the returned logs marker. -/
def test (model : Option PyModel) : Except Exc TestOutcome :=
  if !pyTruthy model then Except.error (Exc.runtimeError RtMsg.buildFirst)
  else Except.ok TestOutcome.logsReturned

/-- What predict() produces when it runs: the squeezed logits. -/
inductive PredictOutcome
  | logitsReturned
  deriving Repr, DecidableEq

/-- trainer.py lines 313-338: Trainer.predict.  Only the model-presence
guard `if not self.model` is modelled; the body is abstracted to the
returned logits marker. -/
def predict (model : Option PyModel) : Except Exc PredictOutcome :=
  if !pyTruthy model then Except.error (Exc.runtimeError RtMsg.buildFirst)
  else Except.ok PredictOutcome.logitsReturned

/-! ## Checkpoint file cleanup over a modelled filesystem -/

/-- The pattern `if osp.exists(path): os.remove(path)` over a filesystem
modelled as the list of existing file paths. -/
def removeIfExists (p : String) (fs : List String) : List String :=
  if fs.contains p then fs.filter (fun q => !(q == p)) else fs

/-- The four tensorflow sidecar extensions of trainer.py lines 427-428. -/
def tfExts : List String :=
  [".data-00000-of-00001", ".data-00000-of-00002", ".data-00001-of-00002", ".index"]

/-- posixpath.split: the directory part and the final component.
osp.realpath is modelled as the identity (no symbolic links). -/
def splitPath (p : String) : String × String :=
  let cs := p.toList
  let tailRev := cs.reverse.takeWhile (fun c => c ≠ '/')
  let headCs := cs.take (cs.length - tailRev.length)
  let head :=
    if headCs ≠ [] ∧ headCs.any (fun c => c ≠ '/') then
      (headCs.reverse.dropWhile (fun c => c = '/')).reverse
    else headCs
  (String.mk head, String.mk tailRev.reverse)

/-- posixpath.join of a directory and a relative file name. -/
def joinPath (a b : String) : String :=
  if pyStartsWith b "/" then b
  else if a = "" ∨ pyEndsWith a "/" then a ++ b
  else a ++ "/" ++ b

/-- trainer.py lines 425-437: remove_extra_tf_files.  Removes the four
sidecar files next to the weight file and the file named checkpoint in its
directory. -/
def remove_extra_tf_files (filepath : String) (fs : List String) : List String :=
  let fs1 := tfExts.foldl (fun f ext => removeIfExists (filepath ++ ext) f) fs
  removeIfExists (joinPath (splitPath filepath).1 "checkpoint") fs1

/-- trainer.py lines 405-411: Trainer.remove_weights.  For the tensorflow
backend the sidecar files go first, then the checkpoint file itself when it
exists. -/
def remove_weights (backend : String) (filepath : String) (fs : List String) : List String :=
  let fs1 := if backend == "tensorflow" then remove_extra_tf_files filepath fs else fs
  removeIfExists filepath fs1

/-- The set of paths remove_weights deletes, as a list. -/
def ckptPaths (backend : String) (filepath : String) : List String :=
  (if backend == "tensorflow" then
     tfExts.map (fun ext => filepath ++ ext) ++ [joinPath (splitPath filepath).1 "checkpoint"]
   else []) ++ [filepath]

/-! ## Derived descriptions of the loop used in the theorem statements -/

/-- Concatenation of the lists produced by f over a list. -/
def concatMap {α : Type u} {β : Type u} (f : α → List β) : List α → List β
  | [] => []
  | a :: l => f a ++ concatMap f l

/-- The epoch indices the loop body runs for, starting at s with the given
fuel: consecutive indices, cut short after the first epoch whose
end-of-epoch stop flag is set. -/
def epochsRunFrom (stop : Nat → Bool) : Nat → Nat → List Nat
  | _, 0 => []
  | s, fuel + 1 => s :: (if stop s then [] else epochsRunFrom stop (s + 1) fuel)

/-- How many epochs a train call with this cfg and environment runs. -/
def numEpochsRun (cfg : TrainCfg) (env : TrainEnv) : Nat :=
  (epochsRunFrom (stopTrainingAt env.setStop) 0 cfg.epochs).length

/-- The CallbackList invocations of one epoch, in source order. -/
def epochCbEvs (numBatches : Nat) (e : Nat) : List Ev :=
  [Ev.onEpochBegin e, Ev.onTrainBatchBegin 0, Ev.onTrainBatchEnd numBatches, Ev.onEpochEnd e]

/-- Whether an event is a CallbackList invocation. -/
def isCbEv : Ev → Bool
  | Ev.onTrainBegin => true
  | Ev.onEpochBegin _ => true
  | Ev.onTrainBatchBegin _ => true
  | Ev.onTrainBatchEnd _ => true
  | Ev.onEpochEnd _ => true
  | Ev.onTrainEnd => true
  | _ => false

/-- Whether an event is the beginning of an epoch. -/
def isEpochBeginEv : Ev → Bool
  | Ev.onEpochBegin _ => true
  | _ => false

/-- Whether an event is a checkpoint restore. -/
def isLoadEv : Ev → Bool
  | Ev.loadWeights _ => true
  | Ev.loadModel _ => true
  | _ => false

/-- The full event list of one epoch body on the no-exception path with
verbose at most 2. -/
def bodyEvs (cfg : TrainCfg) (env : TrainEnv) (e : Nat) : List Ev :=
  epochCbEvs env.numBatches e ++
    (if 0 < cfg.verbose then [Ev.progbarUpdate (e + 1)] else []) ++
    (if stopTrainingAt env.setStop e then [Ev.earlyStopMsg e] else [])

/-! ## Concrete sample inputs used in witnesses -/

/-- A checkpoint configuration with everything off. -/
def ckptOff : CkptCfg :=
  { enabled := false, monitor := "val_loss", save_best_only := true,
    save_weights_only := true, remove_weights := false, path := "w" }

/-- A sample train configuration with two epochs and no callbacks enabled. -/
def cfgPlain : TrainCfg :=
  { epochs := 2, verbose := 0, ModelCheckpoint := ckptOff,
    EarlyStopping := { enabled := false, monitor := "val_loss" },
    TerminateOnNaN := { enabled := false },
    TensorBoard := { enabled := false } }

/-- A quiet environment: no callback ever sets stop_training and no step
raises. -/
def envPlain : TrainEnv :=
  { setStop := fun _ => none, stepRaises := fun _ => false, numBatches := 3 }

/-- A truthy model object. -/
def modelT : PyModel := { truthy := true, stop_training := false }

/-- A falsy (but not None) model object. -/
def modelF : PyModel := { truthy := false, stop_training := false }

/-- A single-epoch configuration. -/
def cfgOne : TrainCfg := { cfgPlain with epochs := 1 }

/-- An environment whose callbacks set stop_training during every epoch. -/
def envStop : TrainEnv := { envPlain with setStop := fun _ => some true }

/-- An environment whose user train_step raises at every epoch. -/
def envRaise : TrainEnv := { envPlain with stepRaises := fun _ => true }

/-- A configuration with the checkpoint enabled, remove_weights on and
weight-only saving. -/
def cfgCkpt : TrainCfg :=
  { cfgPlain with ModelCheckpoint :=
      { ckptOff with enabled := true, remove_weights := true, path := "w.h5" } }

/-- A fresh unprocessed trainer. -/
def trainer0 : Trainer :=
  { is_processed := false, model := none, transform := [],
    cfgProcess := [], cfgModel := [] }

/-- A trainer with one transform key already configured. -/
def trainer1 : Trainer :=
  { trainer0 with cfgProcess := [("adj_transform", "norm"), ("epochs", "5")] }

/-- A sample stand-in for the external gf.get function. -/
def gfGetSample (s : String) : String := s ++ "-resolved"

/-! ## Loop characterization lemmas -/

theorem stopTrainingAt_of_none {setStop : Nat → Option Bool}
    (h : ∀ e, setStop e = none) : ∀ e, stopTrainingAt setStop e = false := by
  intro e
  induction e with
  | zero => simp [stopTrainingAt, h 0]
  | succ e ih => simp [stopTrainingAt, h (e + 1), ih]

theorem epochBody_noexc (cfg : TrainCfg) (env : TrainEnv) (e : Nat)
    (h1 : env.stepRaises e = false) (h2 : cfg.verbose ≤ 2) :
    epochBody cfg env e =
      (bodyEvs cfg env e,
       if stopTrainingAt env.setStop e then Control.brk else Control.next) := by
  unfold epochBody bodyEvs epochCbEvs
  rw [h1]
  simp only [Bool.false_eq_true, if_false]
  rw [if_neg (Nat.not_lt.mpr h2)]
  cases hs : stopTrainingAt env.setStop e <;>
    simp [hs, List.append_assoc]

theorem runEpochs_noexc (cfg : TrainCfg) (env : TrainEnv)
    (h1 : ∀ e, env.stepRaises e = false) (h2 : cfg.verbose ≤ 2)
    (fuel s : Nat) :
    runEpochs cfg env s fuel =
      (concatMap (bodyEvs cfg env)
         (epochsRunFrom (stopTrainingAt env.setStop) s fuel),
       if (epochsRunFrom (stopTrainingAt env.setStop) s fuel).any
           (stopTrainingAt env.setStop) then LoopExit.broke
       else LoopExit.completed) := by
  induction fuel generalizing s with
  | zero => rfl
  | succ fuel ih =>
    show (match epochBody cfg env s with
      | (evs, Control.exc ex) => (evs, LoopExit.raised ex)
      | (evs, Control.brk) => (evs, LoopExit.broke)
      | (evs, Control.next) =>
        let r := runEpochs cfg env (s + 1) fuel
        (evs ++ r.1, r.2)) = _
    rw [epochBody_noexc cfg env s (h1 s) h2]
    cases hs : stopTrainingAt env.setStop s with
    | true =>
      simp only [if_true]
      simp [epochsRunFrom, hs, concatMap]
    | false =>
      simp only [Bool.false_eq_true, if_false]
      simp [epochsRunFrom, hs, concatMap, ih]

theorem epochsRunFrom_isRange (stop : Nat → Bool) (fuel s : Nat) :
    epochsRunFrom stop s fuel =
      List.range' s (epochsRunFrom stop s fuel).length := by
  induction fuel generalizing s with
  | zero => rfl
  | succ fuel ih =>
    simp only [epochsRunFrom]
    cases hs : stop s with
    | true => simp [List.range'_one]
    | false =>
      simp only [Bool.false_eq_true, if_false, List.length_cons]
      rw [List.range'_succ]
      exact congrArg (s :: ·) (ih (s + 1))

theorem length_epochsRunFrom_le (stop : Nat → Bool) (fuel s : Nat) :
    (epochsRunFrom stop s fuel).length ≤ fuel := by
  induction fuel generalizing s with
  | zero => simp [epochsRunFrom]
  | succ fuel ih =>
    simp only [epochsRunFrom]
    cases hs : stop s with
    | true => simp
    | false =>
      simp only [Bool.false_eq_true, if_false, List.length_cons]
      exact Nat.succ_le_succ (ih (s + 1))

theorem length_epochsRunFrom_lt_iff (stop : Nat → Bool) (fuel s : Nat) :
    (epochsRunFrom stop s fuel).length < fuel ↔
      ∃ i, i + 1 < fuel ∧ stop (s + i) = true := by
  induction fuel generalizing s with
  | zero => simp [epochsRunFrom]
  | succ fuel ih =>
    simp only [epochsRunFrom]
    cases hs : stop s with
    | true =>
      simp only [if_true, List.length_cons, List.length_nil]
      constructor
      · intro h
        exact ⟨0, by omega, by simpa using hs⟩
      · intro ⟨i, hi, _⟩
        omega
    | false =>
      simp only [Bool.false_eq_true, if_false, List.length_cons]
      constructor
      · intro h
        obtain ⟨i, hi, hsi⟩ := (ih (s + 1)).mp (by omega)
        exact ⟨i + 1, by omega, by simpa [Nat.add_assoc, Nat.add_comm 1 i] using hsi⟩
      · intro ⟨i, hi, hsi⟩
        match i with
        | 0 =>
          rw [Nat.add_zero] at hsi
          rw [hsi] at hs
          exact absurd hs (by simp)
        | j + 1 =>
          have : (epochsRunFrom stop (s + 1) fuel).length < fuel :=
            (ih (s + 1)).mpr ⟨j, by omega, by
              have : s + 1 + j = s + (j + 1) := by omega
              rw [this]
              exact hsi⟩
          omega

theorem length_epochsRunFrom_all_false (stop : Nat → Bool)
    (h : ∀ e, stop e = false) (fuel s : Nat) :
    (epochsRunFrom stop s fuel).length = fuel := by
  induction fuel generalizing s with
  | zero => rfl
  | succ fuel ih => simp [epochsRunFrom, h s, ih]

theorem filter_concatMap {α β : Type} (p : β → Bool) (f : α → List β) (l : List α) :
    (concatMap f l).filter p = concatMap (fun a => (f a).filter p) l := by
  induction l with
  | nil => rfl
  | cons a l ih => simp [concatMap, List.filter_append, ih]

theorem concatMap_singleton {α β : Type} (g : α → β) (l : List α) :
    concatMap (fun a => [g a]) l = l.map g := by
  induction l with
  | nil => rfl
  | cons a l ih => simp [concatMap, ih]

theorem bodyEvs_filter_epochBegin (cfg : TrainCfg) (env : TrainEnv) (e : Nat) :
    (bodyEvs cfg env e).filter isEpochBeginEv = [Ev.onEpochBegin e] := by
  unfold bodyEvs epochCbEvs
  cases h1 : (0 < cfg.verbose : Bool) <;>
    cases h2 : stopTrainingAt env.setStop e <;>
      simp_all [isEpochBeginEv, List.filter_append]

theorem bodyEvs_filter_cb (cfg : TrainCfg) (env : TrainEnv) (e : Nat) :
    (bodyEvs cfg env e).filter isCbEv = epochCbEvs env.numBatches e := by
  unfold bodyEvs
  cases h1 : (0 < cfg.verbose : Bool) <;>
    cases h2 : stopTrainingAt env.setStop e <;>
      simp_all [isCbEv, epochCbEvs, List.filter_append]

theorem bodyEvs_congr (cfg1 cfg2 : TrainCfg) (env : TrainEnv)
    (h : cfg1.verbose = cfg2.verbose) : bodyEvs cfg1 env = bodyEvs cfg2 env := by
  funext e
  unfold bodyEvs
  rw [h]

/-! ## Invariance of setup_callbacks on the fields it does not touch -/

theorem monitorFallbackCkpt_enabled (v : Bool) (c : CkptCfg) :
    (monitorFallbackCkpt v c).1.enabled = c.enabled := by
  unfold monitorFallbackCkpt
  split <;> rfl

theorem monitorFallbackCkpt_swo (v : Bool) (c : CkptCfg) :
    (monitorFallbackCkpt v c).1.save_weights_only = c.save_weights_only := by
  unfold monitorFallbackCkpt
  split <;> rfl

theorem monitorFallbackCkpt_rw (v : Bool) (c : CkptCfg) :
    (monitorFallbackCkpt v c).1.remove_weights = c.remove_weights := by
  unfold monitorFallbackCkpt
  split <;> rfl

theorem monitorFallbackCkpt_path (v : Bool) (c : CkptCfg) :
    (monitorFallbackCkpt v c).1.path = c.path := by
  unfold monitorFallbackCkpt
  split <;> rfl

theorem monitorFallbackEs_enabled (v : Bool) (c : EsCfg) :
    (monitorFallbackEs v c).1.enabled = c.enabled := by
  unfold monitorFallbackEs
  split <;> rfl

theorem appendExt_enabled (c : CkptCfg) (ext : String) :
    (appendExt c ext).enabled = c.enabled := by
  unfold appendExt
  split <;> rfl

theorem appendExt_swo (c : CkptCfg) (ext : String) :
    (appendExt c ext).save_weights_only = c.save_weights_only := by
  unfold appendExt
  split <;> rfl

theorem appendExt_rw (c : CkptCfg) (ext : String) :
    (appendExt c ext).remove_weights = c.remove_weights := by
  unfold appendExt
  split <;> rfl

theorem appendExt_monitor (c : CkptCfg) (ext : String) :
    (appendExt c ext).monitor = c.monitor := by
  unfold appendExt
  split <;> rfl

theorem setup_callbacks_epochs (cfg : TrainCfg) (cbs : List CallbackKind)
    (v : Bool) (ext : String) :
    (setup_callbacks cfg cbs v ext).1.epochs = cfg.epochs := rfl

theorem setup_callbacks_verbose (cfg : TrainCfg) (cbs : List CallbackKind)
    (v : Bool) (ext : String) :
    (setup_callbacks cfg cbs v ext).1.verbose = cfg.verbose := rfl

theorem setup_callbacks_ckpt_enabled (cfg : TrainCfg) (cbs : List CallbackKind)
    (v : Bool) (ext : String) :
    (setup_callbacks cfg cbs v ext).1.ModelCheckpoint.enabled =
      cfg.ModelCheckpoint.enabled := by
  simp only [setup_callbacks]
  split
  · rw [appendExt_enabled, monitorFallbackCkpt_enabled]
  · rw [monitorFallbackCkpt_enabled]

theorem setup_callbacks_ckpt_swo (cfg : TrainCfg) (cbs : List CallbackKind)
    (v : Bool) (ext : String) :
    (setup_callbacks cfg cbs v ext).1.ModelCheckpoint.save_weights_only =
      cfg.ModelCheckpoint.save_weights_only := by
  simp only [setup_callbacks]
  split
  · rw [appendExt_swo, monitorFallbackCkpt_swo]
  · rw [monitorFallbackCkpt_swo]

theorem setup_callbacks_ckpt_rw (cfg : TrainCfg) (cbs : List CallbackKind)
    (v : Bool) (ext : String) :
    (setup_callbacks cfg cbs v ext).1.ModelCheckpoint.remove_weights =
      cfg.ModelCheckpoint.remove_weights := by
  simp only [setup_callbacks]
  split
  · rw [appendExt_rw, monitorFallbackCkpt_rw]
  · rw [monitorFallbackCkpt_rw]

theorem setup_callbacks_es_enabled (cfg : TrainCfg) (cbs : List CallbackKind)
    (v : Bool) (ext : String) :
    (setup_callbacks cfg cbs v ext).1.EarlyStopping.enabled =
      cfg.EarlyStopping.enabled := by
  simp only [setup_callbacks]
  rw [monitorFallbackEs_enabled]

theorem mem_setup_callbacks (cfg : TrainCfg) (cbs : List CallbackKind)
    (v : Bool) (ext : String) (c : CallbackKind) :
    c ∈ (setup_callbacks cfg cbs v ext).2.1 ↔
      (c ∈ cbs ∨
        (c = CallbackKind.earlyStopping ∧ cfg.EarlyStopping.enabled = true) ∨
        (c = CallbackKind.modelCheckpoint ∧ cfg.ModelCheckpoint.enabled = true) ∨
        (c = CallbackKind.terminateOnNaN ∧ cfg.TerminateOnNaN.enabled = true) ∨
        (c = CallbackKind.tensorBoard ∧ cfg.TensorBoard.enabled = true)) := by
  simp only [setup_callbacks]
  rw [monitorFallbackEs_enabled, monitorFallbackCkpt_enabled]
  cases hE : cfg.EarlyStopping.enabled <;>
    cases hC : cfg.ModelCheckpoint.enabled <;>
      cases hN : cfg.TerminateOnNaN.enabled <;>
        cases hT : cfg.TensorBoard.enabled <;>
          simp [List.mem_append]

theorem epochsRun_eq_range (cfg : TrainCfg) (env : TrainEnv) :
    epochsRunFrom (stopTrainingAt env.setStop) 0 cfg.epochs =
      List.range (numEpochsRun cfg env) := by
  rw [List.range_eq_range']
  exact epochsRunFrom_isRange _ _ _

theorem train_some_cfg (m : PyModel) (cfg : TrainCfg) (env : TrainEnv)
    (v : Bool) (ext : String) :
    (train (some m) cfg env v ext).cfg =
      (setup_callbacks cfg [CallbackKind.history] v ext).1 := rfl

theorem train_some_callbacks (m : PyModel) (cfg : TrainCfg) (env : TrainEnv)
    (v : Bool) (ext : String) :
    (train (some m) cfg env v ext).callbacks =
      (setup_callbacks cfg [CallbackKind.history] v ext).2.1 := rfl

theorem train_some_warnings (m : PyModel) (cfg : TrainCfg) (env : TrainEnv)
    (v : Bool) (ext : String) :
    (train (some m) cfg env v ext).warnings =
      (setup_callbacks cfg [CallbackKind.history] v ext).2.2 := rfl

theorem train_noexc_events (m : PyModel) (cfg : TrainCfg) (env : TrainEnv)
    (v : Bool) (ext : String)
    (h1 : ∀ e, env.stepRaises e = false) (h2 : cfg.verbose ≤ 2) :
    (train (some m) cfg env v ext).events =
      (if 0 < cfg.verbose then [Ev.printTraining] else []) ++ [Ev.onTrainBegin] ++
        concatMap (bodyEvs cfg env)
          (epochsRunFrom (stopTrainingAt env.setStop) 0 cfg.epochs) ++
        ([Ev.onTrainEnd] ++
          (if cfg.ModelCheckpoint.enabled then
             (if cfg.ModelCheckpoint.save_weights_only then
                [Ev.loadWeights
                  (setup_callbacks cfg [CallbackKind.history] v ext).1.ModelCheckpoint.path]
              else
                [Ev.loadModel
                  (setup_callbacks cfg [CallbackKind.history] v ext).1.ModelCheckpoint.path])
           else [])) ++
        (if cfg.ModelCheckpoint.enabled && cfg.ModelCheckpoint.remove_weights then
           [Ev.removeWeightsCall] else []) := by
  have h2' : (setup_callbacks cfg [CallbackKind.history] v ext).1.verbose ≤ 2 := by
    rw [setup_callbacks_verbose]
    exact h2
  simp only [train]
  rw [runEpochs_noexc _ env h1 h2']
  rw [setup_callbacks_epochs, setup_callbacks_verbose,
    bodyEvs_congr _ cfg env (setup_callbacks_verbose cfg _ v ext),
    setup_callbacks_ckpt_enabled, setup_callbacks_ckpt_swo, setup_callbacks_ckpt_rw]
  cases hA : (epochsRunFrom (stopTrainingAt env.setStop) 0 cfg.epochs).any
      (stopTrainingAt env.setStop) <;>
    simp [List.append_assoc]

theorem train_noexc_result (m : PyModel) (cfg : TrainCfg) (env : TrainEnv)
    (v : Bool) (ext : String)
    (h1 : ∀ e, env.stepRaises e = false) (h2 : cfg.verbose ≤ 2) :
    (train (some m) cfg env v ext).result = Except.ok RetVal.historyObj := by
  have h2' : (setup_callbacks cfg [CallbackKind.history] v ext).1.verbose ≤ 2 := by
    rw [setup_callbacks_verbose]
    exact h2
  simp only [train]
  rw [runEpochs_noexc _ env h1 h2']
  cases hA : (epochsRunFrom (stopTrainingAt env.setStop) 0
      (setup_callbacks cfg [CallbackKind.history] v ext).1.epochs).any
      (stopTrainingAt env.setStop) <;>
    simp

theorem train_noexc_modelReplaced (m : PyModel) (cfg : TrainCfg) (env : TrainEnv)
    (v : Bool) (ext : String)
    (h1 : ∀ e, env.stepRaises e = false) (h2 : cfg.verbose ≤ 2) :
    (train (some m) cfg env v ext).modelReplaced =
      (if cfg.ModelCheckpoint.enabled && !cfg.ModelCheckpoint.save_weights_only then
         some (setup_callbacks cfg [CallbackKind.history] v ext).1.ModelCheckpoint.path
       else none) := by
  have h2' : (setup_callbacks cfg [CallbackKind.history] v ext).1.verbose ≤ 2 := by
    rw [setup_callbacks_verbose]
    exact h2
  simp only [train]
  rw [runEpochs_noexc _ env h1 h2']
  rw [setup_callbacks_ckpt_enabled, setup_callbacks_ckpt_swo]
  cases hA : (epochsRunFrom (stopTrainingAt env.setStop) 0
      (setup_callbacks cfg [CallbackKind.history] v ext).1.epochs).any
      (stopTrainingAt env.setStop) <;>
    simp

theorem concatMap_nil_fun {α β : Type} (l : List α) :
    concatMap (fun _ => ([] : List β)) l = [] := by
  induction l with
  | nil => rfl
  | cons a l ih => simpa [concatMap] using ih

theorem bodyEvs_filter_load (cfg : TrainCfg) (env : TrainEnv) (e : Nat) :
    (bodyEvs cfg env e).filter isLoadEv = [] := by
  unfold bodyEvs
  cases h1 : (0 < cfg.verbose : Bool) <;>
    cases h2 : stopTrainingAt env.setStop e <;>
      simp_all [isLoadEv, epochCbEvs, List.filter_append]

theorem beqString_eq_decide (a b : String) : (a == b) = decide (a = b) := by
  cases hd : decide (a = b)
  · simp at hd
    simp [hd]
  · simp at hd
    simp [hd]

theorem removeIfExists_eq_filter (p : String) (fs : List String) :
    removeIfExists p fs = fs.filter (fun q => !decide (q = p)) := by
  unfold removeIfExists
  split
  · apply List.filter_congr
    intro a _
    rw [beqString_eq_decide]
  · rename_i h
    refine (List.filter_eq_self.mpr ?_).symm
    intro a ha
    simp only [Bool.not_eq_true', decide_eq_false_iff_not]
    intro hap
    subst hap
    exact h (by simpa using ha)

theorem foldl_removeIfExists (ps fs : List String) :
    ps.foldl (fun f p => removeIfExists p f) fs =
      fs.filter (fun q => !decide (q ∈ ps)) := by
  induction ps generalizing fs with
  | nil => simp
  | cons p ps ih =>
    show ps.foldl _ (removeIfExists p fs) = _
    rw [ih, removeIfExists_eq_filter, List.filter_filter]
    apply List.filter_congr
    intro a _
    by_cases h1 : a = p <;> by_cases h2 : a ∈ ps <;> simp [h1, h2]

/-! ## Exception shapes of the training loop -/

theorem epochBody_exc_shape (cfg : TrainCfg) (env : TrainEnv) (e : Nat)
    (evs : List Ev) (ex : Exc)
    (h : epochBody cfg env e = (evs, Control.exc ex)) :
    ex = Exc.userException ∨ ex = Exc.nameError "epochs" := by
  have hlk : (lookupName "epoch" >>= fun _ => lookupName "epochs") =
      Except.error (Exc.nameError "epochs") := by decide
  unfold epochBody at h
  cases hsr : env.stepRaises e with
  | true =>
    rw [hsr] at h
    simp only [if_true, Prod.mk.injEq, Control.exc.injEq] at h
    exact Or.inl h.2.symm
  | false =>
    rw [hsr] at h
    simp only [Bool.false_eq_true, if_false] at h
    by_cases hv : 2 < cfg.verbose
    · rw [if_pos hv, hlk] at h
      simp only [Prod.mk.injEq, Control.exc.injEq] at h
      exact Or.inr h.2.symm
    · rw [if_neg hv] at h
      cases hst : stopTrainingAt env.setStop e <;>
        simp [hst, Prod.mk.injEq] at h

theorem runEpochs_raised_shape (cfg : TrainCfg) (env : TrainEnv)
    (fuel s : Nat) (ex : Exc)
    (h : (runEpochs cfg env s fuel).2 = LoopExit.raised ex) :
    ex = Exc.userException ∨ ex = Exc.nameError "epochs" := by
  induction fuel generalizing s with
  | zero => simp [runEpochs] at h
  | succ fuel ih =>
    rcases hb : epochBody cfg env s with ⟨evs, ctl⟩
    simp only [runEpochs, hb] at h
    cases ctl with
    | exc ex' =>
      simp only [LoopExit.raised.injEq] at h
      rw [← h]
      exact epochBody_exc_shape cfg env s evs ex' hb
    | brk => simp at h
    | next =>
      simp only at h
      exact ih (s + 1) h

theorem train_some_result_shape (m : PyModel) (cfg : TrainCfg) (env : TrainEnv)
    (v : Bool) (ext : String) :
    (train (some m) cfg env v ext).result ≠
      Except.error (Exc.runtimeError RtMsg.buildFirst) := by
  intro h
  simp only [train] at h
  rcases hr : (runEpochs (setup_callbacks cfg [CallbackKind.history] v ext).1 env 0
      (setup_callbacks cfg [CallbackKind.history] v ext).1.epochs).2 with _ | _ | ex
  · rw [hr] at h
    simp at h
  · rw [hr] at h
    simp at h
  · rw [hr] at h
    simp only [Except.error.injEq] at h
    rcases runEpochs_raised_shape _ _ _ _ _ hr with hh | hh <;> simp [hh] at h

theorem epochBody_nameError (cfg : TrainCfg) (env : TrainEnv) (e : Nat)
    (hv : 2 < cfg.verbose) (hs : env.stepRaises e = false) :
    epochBody cfg env e =
      ([Ev.onEpochBegin e, Ev.onTrainBatchBegin 0,
        Ev.onTrainBatchEnd env.numBatches, Ev.onEpochEnd e],
       Control.exc (Exc.nameError "epochs")) := by
  have hlk : (lookupName "epoch" >>= fun _ => lookupName "epochs") =
      Except.error (Exc.nameError "epochs") := by decide
  unfold epochBody
  rw [hs]
  simp only [Bool.false_eq_true, if_false]
  rw [if_pos hv, hlk]
  rfl

/-! ## Association-list lemmas -/

theorem lookupKey_append (a b : List (String × String)) (k : String) :
    lookupKey (a ++ b) k = orO (lookupKey a k) (lookupKey b k) := by
  induction a with
  | nil => rfl
  | cons p rest ih =>
    obtain ⟨k0, v0⟩ := p
    by_cases hk : k0 = k
    · simp [lookupKey, hk, orO]
    · simp [lookupKey, hk, ih]

theorem lookupKey_setKey_self (c : List (String × String)) (k v : String) :
    lookupKey (setKey c k v) k = some v := by
  induction c with
  | nil => simp [setKey, lookupKey]
  | cons p rest ih =>
    obtain ⟨k0, v0⟩ := p
    by_cases hk : k0 = k
    · simp [setKey, lookupKey, hk]
    · simp [setKey, lookupKey, hk, ih]

theorem lookupKey_setKey_ne (c : List (String × String)) (k v k' : String)
    (h : k ≠ k') : lookupKey (setKey c k v) k' = lookupKey c k' := by
  have hne : (k == k') = false := by simp [h]
  induction c with
  | nil => simp [setKey, lookupKey, hne]
  | cons p rest ih =>
    obtain ⟨k0, v0⟩ := p
    by_cases hk : k0 = k
    · subst hk
      simp [setKey, lookupKey, hne]
    · by_cases hk' : k0 = k'
      · have h2 : ¬(k' = k) := fun hh => h hh.symm
        simp [setKey, lookupKey, hk, hk', h2]
      · simp [setKey, lookupKey, hk, hk', ih]

theorem lookupLast_cons (k0 v0 : String) (kw : List (String × String)) (k : String) :
    lookupLast ((k0, v0) :: kw) k =
      orO (lookupLast kw k) (if k0 == k then some v0 else none) := by
  unfold lookupLast
  simp only [List.reverse_cons]
  rw [lookupKey_append]
  rfl

theorem lookupKey_mergeFromDict (c kw : List (String × String)) (k : String) :
    lookupKey (mergeFromDict c kw) k = orO (lookupLast kw k) (lookupKey c k) := by
  induction kw generalizing c with
  | nil => rfl
  | cons p rest ih =>
    obtain ⟨k0, v0⟩ := p
    show lookupKey (mergeFromDict (setKey c k0 v0) rest) k = _
    rw [ih, lookupLast_cons]
    by_cases hk : k0 = k
    · subst hk
      rw [lookupKey_setKey_self]
      simp only [beq_self_eq_true, if_true]
      cases lookupLast rest k0 <;> rfl
    · rw [lookupKey_setKey_ne _ _ _ _ hk]
      simp only [beq_iff_eq, hk, if_false]
      cases lookupLast rest k <;> rfl

theorem hasKey_cons (k0 v0 k : String) (rest : List (String × String)) :
    hasKey ((k0, v0) :: rest) k = ((k0 == k) || hasKey rest k) := by
  simp [hasKey]

theorem keys_setKey (c : List (String × String)) (k v : String) :
    (setKey c k v).map Prod.fst =
      if hasKey c k then c.map Prod.fst else c.map Prod.fst ++ [k] := by
  induction c with
  | nil => simp [setKey, hasKey]
  | cons p rest ih =>
    obtain ⟨k0, v0⟩ := p
    rw [hasKey_cons]
    by_cases hk : k0 = k
    · subst hk
      simp [setKey]
    · have hbk : (k0 == k) = false := by simp [hk]
      simp only [setKey, hbk, Bool.false_eq_true, if_false, List.map_cons, ih,
        Bool.false_or]
      cases hh : hasKey rest k <;> simp

theorem nodupKeys_setKey (c : List (String × String)) (k v : String)
    (h : (c.map Prod.fst).Nodup) : ((setKey c k v).map Prod.fst).Nodup := by
  rw [keys_setKey]
  cases hh : hasKey c k with
  | true => simpa using h
  | false =>
    have hk : k ∉ c.map Prod.fst := by
      intro hm
      simp only [List.mem_map] at hm
      obtain ⟨p, hp, hpk⟩ := hm
      have hc : hasKey c k = true := by
        simp only [hasKey, List.any_eq_true, beq_iff_eq]
        exact ⟨p, hp, hpk⟩
      rw [hc] at hh
      exact absurd hh (by simp)
    simp only [Bool.false_eq_true, if_false]
    rw [List.nodup_append_comm]
    simp only [List.singleton_append, List.nodup_cons]
    exact ⟨hk, h⟩

theorem nodupKeys_mergeFromDict (c kw : List (String × String))
    (h : (c.map Prod.fst).Nodup) : ((mergeFromDict c kw).map Prod.fst).Nodup := by
  induction kw generalizing c with
  | nil => exact h
  | cons p rest ih => exact ih _ (nodupKeys_setKey _ _ _ h)

theorem mem_of_lookupKey {c : List (String × String)} {k v : String}
    (h : lookupKey c k = some v) : (k, v) ∈ c := by
  induction c with
  | nil => simp [lookupKey] at h
  | cons p rest ih =>
    obtain ⟨k0, v0⟩ := p
    by_cases hk : k0 = k
    · subst hk
      simp only [lookupKey, beq_self_eq_true, if_true, Option.some_inj] at h
      subst h
      exact List.mem_cons_self _ _
    · simp only [lookupKey, beq_iff_eq, hk, if_false] at h
      exact List.mem_cons_of_mem _ (ih h)

theorem applyTransforms_cons (g : String → String) (t : List (String × String))
    (k0 v0 : String) (rest : List (String × String)) :
    applyTransforms g t ((k0, v0) :: rest) =
      applyTransforms g (if pyEndsWith k0 "transform" then setKey t k0 (g v0) else t) rest := by
  simp only [applyTransforms, List.foldl_cons]

theorem lookupKey_applyTransforms_notmem (g : String → String)
    (t cfg : List (String × String)) (k : String)
    (h : ∀ p ∈ cfg, p.1 ≠ k) :
    lookupKey (applyTransforms g t cfg) k = lookupKey t k := by
  induction cfg generalizing t with
  | nil => rfl
  | cons p rest ih =>
    obtain ⟨k0, v0⟩ := p
    have hk : k0 ≠ k := h (k0, v0) (List.mem_cons_self _ _)
    rw [applyTransforms_cons, ih _ (fun q hq => h q (List.mem_cons_of_mem _ hq))]
    by_cases he : pyEndsWith k0 "transform"
    · rw [if_pos he]
      exact lookupKey_setKey_ne _ _ _ _ hk
    · rw [if_neg he]

theorem lookupKey_applyTransforms_mem (g : String → String)
    (t cfg : List (String × String)) (k v : String)
    (hnd : (cfg.map Prod.fst).Nodup) (hmem : (k, v) ∈ cfg)
    (he : pyEndsWith k "transform" = true) :
    lookupKey (applyTransforms g t cfg) k = some (g v) := by
  induction cfg generalizing t with
  | nil => simp at hmem
  | cons p rest ih =>
    obtain ⟨k0, v0⟩ := p
    simp only [List.map_cons, List.nodup_cons] at hnd
    rw [applyTransforms_cons]
    rcases List.mem_cons.mp hmem with hh | hh
    · have hk : k = k0 := congrArg Prod.fst hh
      have hv : v = v0 := congrArg Prod.snd hh
      subst hk
      subst hv
      rw [if_pos he, lookupKey_applyTransforms_notmem]
      · exact lookupKey_setKey_self _ _ _
      · intro q hq hqk
        exact hnd.1 (hqk ▸ List.mem_map_of_mem Prod.fst hq)
    · exact ih _ hnd.2 hh

/-! ## Python indexing lemmas -/

theorem pyIndex_ofNat {α : Type u} (xs : List α) (i : Nat) (h : i < xs.length) :
    pyIndex xs (i : Int) = Except.ok (xs.get ⟨i, h⟩) := by
  simp only [pyIndex]
  rw [if_neg (by omega : ¬(i : Int) < 0), Int.toNat_ofNat, List.get?_eq_get h]
  show (if (0 : Int) ≤ (i : Int) then Except.ok (xs.get ⟨i, h⟩)
    else Except.error Exc.indexError) = Except.ok (xs.get ⟨i, h⟩)
  rw [if_pos (by omega : (0 : Int) ≤ (i : Int))]

theorem pyIndex_neg_one {α : Type u} (xs : List α) (h : 1 ≤ xs.length) :
    pyIndex xs (-1) = Except.ok (xs.get ⟨xs.length - 1, by omega⟩) := by
  simp only [pyIndex]
  rw [if_pos (by omega : (-1 : Int) < 0)]
  have ht : ((-1 : Int) + xs.length).toNat = xs.length - 1 := by omega
  rw [ht, List.get?_eq_get (by omega : xs.length - 1 < xs.length)]
  show (if (0 : Int) ≤ (-1 : Int) + xs.length then
      Except.ok (xs.get ⟨xs.length - 1, by omega⟩)
    else Except.error Exc.indexError) = Except.ok (xs.get ⟨xs.length - 1, by omega⟩)
  rw [if_pos (by omega : (0 : Int) ≤ (-1 : Int) + xs.length)]

/-! ## Claim theorems -/

/-- C1: on a Trainer with is_processed false, build and build_from_model
raise the process-first RuntimeError (leaving the model unset), while
process sets is_processed to true and returns the trainer, after which
build no longer raises on this precondition. -/
theorem claim_C1 (st : Trainer) (bm m2 : PyModel)
    (kw leftover : List (String × String)) (g : String → String)
    (h : st.is_processed = false) :
    st.build bm kw = Except.error (Exc.runtimeError RtMsg.processFirst) ∧
    st.build_from_model m2 = Except.error (Exc.runtimeError RtMsg.processFirst) ∧
    (st.process leftover g).is_processed = true ∧
    ∃ st', (st.process leftover g).build bm kw = Except.ok st' := by
  refine ⟨?_, ?_, rfl, ?_⟩
  · simp [Trainer.build, h]
  · simp [Trainer.build_from_model, h]
  · exact ⟨_, rfl⟩

/-- C1 witness: the guards and the lifecycle on a concrete fresh trainer. -/
theorem claim_C1_witness :
    trainer0.is_processed = false ∧
    trainer0.build modelT [] = Except.error (Exc.runtimeError RtMsg.processFirst) ∧
    Trainer.build_from_model trainer0 modelT =
      Except.error (Exc.runtimeError RtMsg.processFirst) ∧
    (trainer0.process [] gfGetSample).is_processed = true :=
  ⟨rfl, (claim_C1 trainer0 modelT modelT [] [] gfGetSample rfl).1,
    (claim_C1 trainer0 modelT modelT [] [] gfGetSample rfl).2.1,
    (claim_C1 trainer0 modelT modelT [] [] gfGetSample rfl).2.2.1⟩

/-- C2 counterexample: a Trainer whose model slot holds a falsy (but not
None) object.  The claim says train raises the build-first RuntimeError for
every model that is None or falsy; here the model is falsy and train runs to
completion, returning the History object. -/
theorem claim_C2_counterexample :
    pyTruthy (some modelF) = false ∧
    (train (some modelF) cfgPlain envPlain false ".h5").result =
      Except.ok RetVal.historyObj := by
  exact ⟨rfl, by decide⟩

/-- C2 amended: train raises the build-first RuntimeError exactly when
self.model is None (its guard is `if model is None`), and then does nothing
else; test and predict raise it exactly when self.model is None or falsy
(their guard is `if not self.model`), returning no logs or logits. -/
theorem claim_C2 (model : Option PyModel) (cfg : TrainCfg) (env : TrainEnv)
    (v : Bool) (ext : String) :
    ((train model cfg env v ext).result =
        Except.error (Exc.runtimeError RtMsg.buildFirst) ↔ model = none) ∧
    (model = none → (train model cfg env v ext).events = []) ∧
    (test model = Except.error (Exc.runtimeError RtMsg.buildFirst) ↔
      pyTruthy model = false) ∧
    (predict model = Except.error (Exc.runtimeError RtMsg.buildFirst) ↔
      pyTruthy model = false) := by
  refine ⟨⟨?_, ?_⟩, ?_, ?_, ?_⟩
  · intro h
    cases model with
    | none => rfl
    | some m => exact absurd h (train_some_result_shape m cfg env v ext)
  · intro h
    subst h
    rfl
  · intro h
    subst h
    rfl
  · cases hp : pyTruthy model <;> simp [test, hp]
  · cases hp : pyTruthy model <;> simp [predict, hp]

/-- C2 witness: the amended behaviour at concrete inputs. -/
theorem claim_C2_witness :
    (train none cfgPlain envPlain false ".h5").result =
      Except.error (Exc.runtimeError RtMsg.buildFirst) ∧
    (train none cfgPlain envPlain false ".h5").events = [] ∧
    test (some modelF) = Except.error (Exc.runtimeError RtMsg.buildFirst) ∧
    predict none = Except.error (Exc.runtimeError RtMsg.buildFirst) :=
  ⟨(claim_C2 none cfgPlain envPlain false ".h5").1.mpr rfl,
    (claim_C2 none cfgPlain envPlain false ".h5").2.1 rfl,
    (claim_C2 (some modelF) cfgPlain envPlain false ".h5").2.2.1.mpr rfl,
    (claim_C2 none cfgPlain envPlain false ".h5").2.2.2.mpr rfl⟩

/-- C3 counterexample: one configured epoch and a callback that sets
stop_training during it.  The flag is true at the end of an executed epoch
(the break fires), yet the loop has run all cfg.epochs = 1 iterations, so
train does not leave the loop before completing all iterations — the
biconditional of the claim fails in this case. -/
theorem claim_C3_counterexample :
    stopTrainingAt envStop.setStop 0 = true ∧
    (train (some modelT) cfgOne envStop false ".h5").events.filter isEpochBeginEv =
      [Ev.onEpochBegin 0] ∧
    numEpochsRun cfgOne envStop = cfgOne.epochs := by
  refine ⟨rfl, by decide, rfl⟩

/-- C3 amended: in a run with no exception, train runs the per-epoch body
for consecutive epochs 0, 1, ..., k-1 with k at most cfg.epochs; it stops
short of cfg.epochs exactly when stop_training is true at the end of an
epoch other than the final one; and since stop_training is reset before the
loop, a run whose callbacks never touch the flag does all cfg.epochs
epochs. -/
theorem claim_C3 (m : PyModel) (cfg : TrainCfg) (env : TrainEnv)
    (v : Bool) (ext : String)
    (h1 : ∀ e, env.stepRaises e = false) (h2 : cfg.verbose ≤ 2) :
    (train (some m) cfg env v ext).events.filter isEpochBeginEv =
      (List.range (numEpochsRun cfg env)).map Ev.onEpochBegin ∧
    numEpochsRun cfg env ≤ cfg.epochs ∧
    (numEpochsRun cfg env < cfg.epochs ↔
      ∃ e, e + 1 < cfg.epochs ∧ stopTrainingAt env.setStop e = true) ∧
    ((∀ e, env.setStop e = none) → numEpochsRun cfg env = cfg.epochs) := by
  refine ⟨?_, length_epochsRunFrom_le _ _ _, ?_, ?_⟩
  · rw [train_noexc_events m cfg env v ext h1 h2, epochsRun_eq_range]
    simp [List.filter_append, filter_concatMap, bodyEvs_filter_epochBegin,
      concatMap_singleton, isEpochBeginEv,
      apply_ite (List.filter isEpochBeginEv)]
  · simpa using length_epochsRunFrom_lt_iff (stopTrainingAt env.setStop) cfg.epochs 0
  · intro h
    exact length_epochsRunFrom_all_false _ (stopTrainingAt_of_none h) _ _

/-- C3 witness: the amended statement at a concrete quiet two-epoch run. -/
theorem claim_C3_witness :
    (train (some modelT) cfgPlain envPlain false ".h5").events.filter isEpochBeginEv =
      (List.range (numEpochsRun cfgPlain envPlain)).map Ev.onEpochBegin ∧
    numEpochsRun cfgPlain envPlain = cfgPlain.epochs :=
  ⟨(claim_C3 modelT cfgPlain envPlain false ".h5" (fun _ => rfl) (by decide)).1,
    (claim_C3 modelT cfgPlain envPlain false ".h5" (fun _ => rfl) (by decide)).2.2.2
      (fun _ => rfl)⟩

/-- C4: with the checkpoint enabled and training completing without an
exception, train performs exactly one restore from the (possibly
extension-completed) checkpoint path — model.load_weights when
save_weights_only, otherwise self.model is replaced with model.load — and
returns the History callback object. -/
theorem claim_C4 (m : PyModel) (cfg : TrainCfg) (env : TrainEnv)
    (v : Bool) (ext : String)
    (h1 : ∀ e, env.stepRaises e = false) (h2 : cfg.verbose ≤ 2)
    (hc : cfg.ModelCheckpoint.enabled = true) :
    (train (some m) cfg env v ext).result = Except.ok RetVal.historyObj ∧
    (cfg.ModelCheckpoint.save_weights_only = true →
      (train (some m) cfg env v ext).events.filter isLoadEv =
        [Ev.loadWeights (train (some m) cfg env v ext).cfg.ModelCheckpoint.path] ∧
      (train (some m) cfg env v ext).modelReplaced = none) ∧
    (cfg.ModelCheckpoint.save_weights_only = false →
      (train (some m) cfg env v ext).events.filter isLoadEv =
        [Ev.loadModel (train (some m) cfg env v ext).cfg.ModelCheckpoint.path] ∧
      (train (some m) cfg env v ext).modelReplaced =
        some (train (some m) cfg env v ext).cfg.ModelCheckpoint.path) := by
  refine ⟨train_noexc_result m cfg env v ext h1 h2, ?_, ?_⟩
  · intro hswo
    refine ⟨?_, ?_⟩
    · rw [train_noexc_events m cfg env v ext h1 h2, train_some_cfg]
      simp [List.filter_append, filter_concatMap, bodyEvs_filter_load,
        concatMap_nil_fun, hc, hswo, isLoadEv,
        apply_ite (List.filter isLoadEv)]
    · rw [train_noexc_modelReplaced m cfg env v ext h1 h2]
      simp [hc, hswo]
  · intro hswo
    refine ⟨?_, ?_⟩
    · rw [train_noexc_events m cfg env v ext h1 h2, train_some_cfg]
      simp [List.filter_append, filter_concatMap, bodyEvs_filter_load,
        concatMap_nil_fun, hc, hswo, isLoadEv,
        apply_ite (List.filter isLoadEv)]
    · rw [train_noexc_modelReplaced m cfg env v ext h1 h2, train_some_cfg]
      simp [hc, hswo]

/-- C4 witness: a quiet run with the checkpoint enabled restores the
weights once and returns the History object. -/
theorem claim_C4_witness :
    (train (some modelT) cfgCkpt envPlain false ".h5").result =
      Except.ok RetVal.historyObj ∧
    (train (some modelT) cfgCkpt envPlain false ".h5").events.filter isLoadEv =
      [Ev.loadWeights
        (train (some modelT) cfgCkpt envPlain false ".h5").cfg.ModelCheckpoint.path] :=
  ⟨(claim_C4 modelT cfgCkpt envPlain false ".h5" (fun _ => rfl) (by decide) rfl).1,
    ((claim_C4 modelT cfgCkpt envPlain false ".h5" (fun _ => rfl) (by decide) rfl).2.1
      rfl).1⟩

/-- C5: when the checkpoint is enabled with remove_weights, every train call
— also one that raises — ends with the remove_weights cleanup (it sits in
the finally block); and remove_weights deletes exactly the checkpoint file,
plus, for the tensorflow backend, the four sidecar files and the sibling
file named checkpoint. -/
theorem claim_C5 (m : PyModel) (cfg : TrainCfg) (env : TrainEnv)
    (v : Bool) (ext : String) (backend filepath : String) (fs : List String)
    (hc : cfg.ModelCheckpoint.enabled = true)
    (hr : cfg.ModelCheckpoint.remove_weights = true) :
    (train (some m) cfg env v ext).events.getLast? = some Ev.removeWeightsCall ∧
    remove_weights backend filepath fs =
      fs.filter (fun q => !decide (q ∈ ckptPaths backend filepath)) := by
  constructor
  · simp only [train]
    rw [setup_callbacks_ckpt_enabled, setup_callbacks_ckpt_rw, hc, hr]
    simp only [Bool.and_self, if_true]
    rw [List.getLast?_append]
    simp
  · unfold remove_weights ckptPaths
    cases hb : backend == "tensorflow" with
    | false =>
      rw [removeIfExists_eq_filter]
      simp only [Bool.false_eq_true, if_false]
      apply List.filter_congr
      intro a _
      simp
    | true =>
      simp only [if_true]
      unfold remove_extra_tf_files
      have hfold : tfExts.foldl (fun f e => removeIfExists (filepath ++ e) f) fs =
          (tfExts.map (fun e => filepath ++ e)).foldl
            (fun f p => removeIfExists p f) fs :=
        (List.foldl_map (fun e => filepath ++ e)
          (fun f p => removeIfExists p f) tfExts fs).symm
      rw [hfold, foldl_removeIfExists, removeIfExists_eq_filter,
        removeIfExists_eq_filter, List.filter_filter, List.filter_filter]
      apply List.filter_congr
      intro a _
      by_cases hm1 : a ∈ tfExts.map (fun e => filepath ++ e) <;>
        by_cases hm2 : a = joinPath (splitPath filepath).1 "checkpoint" <;>
          by_cases hm3 : a = filepath <;>
            simp [hm1, hm2, hm3]

/-- C5 witness: a raising run still ends in cleanup, and remove_weights on a
concrete tensorflow filesystem removes the right files. -/
theorem claim_C5_witness :
    (train (some modelT) cfgCkpt envRaise false ".h5").events.getLast? =
      some Ev.removeWeightsCall ∧
    remove_weights "tensorflow" "d/w.h5" ["d/w.h5", "d/checkpoint", "d/w.h5.index", "other"] =
      (["d/w.h5", "d/checkpoint", "d/w.h5.index", "other"]).filter
        (fun q => !decide (q ∈ ckptPaths "tensorflow" "d/w.h5")) :=
  ⟨(claim_C5 modelT cfgCkpt envRaise false ".h5" "tensorflow" "d/w.h5"
      ["d/w.h5", "d/checkpoint", "d/w.h5.index", "other"] rfl rfl).1,
    (claim_C5 modelT cfgCkpt envRaise false ".h5" "tensorflow" "d/w.h5"
      ["d/w.h5", "d/checkpoint", "d/w.h5.index", "other"] rfl rfl).2⟩

/-- C6: in a run with no exception, the CallbackList invocations of train
are exactly on_train_begin, then per executed epoch on_epoch_begin,
on_train_batch_begin 0, on_train_batch_end len(train_data), on_epoch_end,
and finally on_train_end; the callback list always holds the History
callback, and holds EarlyStopping, ModelCheckpoint, TerminateOnNaN and
TensorBoard each exactly when its cfg entry is enabled. -/
theorem claim_C6 (m : PyModel) (cfg : TrainCfg) (env : TrainEnv)
    (v : Bool) (ext : String)
    (h1 : ∀ e, env.stepRaises e = false) (h2 : cfg.verbose ≤ 2) :
    (train (some m) cfg env v ext).events.filter isCbEv =
      Ev.onTrainBegin ::
        (concatMap (epochCbEvs env.numBatches)
            (List.range (numEpochsRun cfg env)) ++ [Ev.onTrainEnd]) ∧
    CallbackKind.history ∈ (train (some m) cfg env v ext).callbacks ∧
    (CallbackKind.earlyStopping ∈ (train (some m) cfg env v ext).callbacks ↔
      cfg.EarlyStopping.enabled = true) ∧
    (CallbackKind.modelCheckpoint ∈ (train (some m) cfg env v ext).callbacks ↔
      cfg.ModelCheckpoint.enabled = true) ∧
    (CallbackKind.terminateOnNaN ∈ (train (some m) cfg env v ext).callbacks ↔
      cfg.TerminateOnNaN.enabled = true) ∧
    (CallbackKind.tensorBoard ∈ (train (some m) cfg env v ext).callbacks ↔
      cfg.TensorBoard.enabled = true) := by
  refine ⟨?_, ?_, ?_, ?_, ?_, ?_⟩
  · rw [train_noexc_events m cfg env v ext h1 h2, epochsRun_eq_range]
    simp [List.filter_append, filter_concatMap, bodyEvs_filter_cb, isCbEv,
      apply_ite (List.filter isCbEv)]
  · rw [train_some_callbacks, mem_setup_callbacks]
    simp
  · rw [train_some_callbacks, mem_setup_callbacks]
    simp
  · rw [train_some_callbacks, mem_setup_callbacks]
    simp
  · rw [train_some_callbacks, mem_setup_callbacks]
    simp
  · rw [train_some_callbacks, mem_setup_callbacks]
    simp

/-- C6 witness: the callback trace and callback list of a concrete quiet
two-epoch run with the checkpoint enabled. -/
theorem claim_C6_witness :
    (train (some modelT) cfgCkpt envPlain false ".h5").events.filter isCbEv =
      Ev.onTrainBegin ::
        (concatMap (epochCbEvs envPlain.numBatches)
            (List.range (numEpochsRun cfgCkpt envPlain)) ++ [Ev.onTrainEnd]) ∧
    CallbackKind.history ∈ (train (some modelT) cfgCkpt envPlain false ".h5").callbacks ∧
    (CallbackKind.modelCheckpoint ∈
      (train (some modelT) cfgCkpt envPlain false ".h5").callbacks ↔
        cfgCkpt.ModelCheckpoint.enabled = true) :=
  ⟨(claim_C6 modelT cfgCkpt envPlain false ".h5" (fun _ => rfl) (by decide)).1,
    (claim_C6 modelT cfgCkpt envPlain false ".h5" (fun _ => rfl) (by decide)).2.1,
    (claim_C6 modelT cfgCkpt envPlain false ".h5" (fun _ => rfl) (by decide)).2.2.2.1⟩

/-- C7: process merges the keyword arguments left over from process_step
into cfg.process (a later duplicate key wins over the existing value); every
key of the merged cfg.process ending in "transform" is written through
gf.get onto self.transform; and process returns the same trainer, mutated in
place, with is_processed set. -/
theorem claim_C7 (st : Trainer) (leftover : List (String × String))
    (g : String → String) :
    (∀ k, lookupKey (st.process leftover g).cfgProcess k =
        orO (lookupLast leftover k) (lookupKey st.cfgProcess k)) ∧
    ((st.cfgProcess.map Prod.fst).Nodup →
      ∀ k v, pyEndsWith k "transform" = true →
        lookupKey (st.process leftover g).cfgProcess k = some v →
        lookupKey (st.process leftover g).transform k = some (g v)) ∧
    (st.process leftover g).is_processed = true ∧
    (st.process leftover g).model = st.model ∧
    (st.process leftover g).cfgModel = st.cfgModel := by
  refine ⟨?_, ?_, rfl, rfl, rfl⟩
  · intro k
    exact lookupKey_mergeFromDict _ _ _
  · intro hnd k v he hlk
    exact lookupKey_applyTransforms_mem g _ _ k v
      (nodupKeys_mergeFromDict _ leftover hnd) (mem_of_lookupKey hlk) he

/-- C7 witness: merging and transform resolution on a concrete trainer. -/
theorem claim_C7_witness :
    lookupKey (trainer1.process [("attr_transform", "scale")] gfGetSample).cfgProcess
        "attr_transform" = some "scale" ∧
    lookupKey (trainer1.process [("attr_transform", "scale")] gfGetSample).transform
        "adj_transform" = some (gfGetSample "norm") ∧
    (trainer1.process [("attr_transform", "scale")] gfGetSample).is_processed = true :=
  ⟨((claim_C7 trainer1 [("attr_transform", "scale")] gfGetSample).1
      "attr_transform").trans (by decide),
    (claim_C7 trainer1 [("attr_transform", "scale")] gfGetSample).2.1 (by decide)
      "adj_transform" "norm" (by decide) (by decide),
    (claim_C7 trainer1 [("attr_transform", "scale")] gfGetSample).2.2.1⟩

/-- C8: unravel_batch returns (batch, None, None) on a non-sequence batch;
(batch 0, batch 1, None) on a two-element sequence; (batch 0, batch 1,
batch -1), the LAST element, on a longer sequence; and raises IndexError on
a sequence with fewer than two elements. -/
theorem claim_C8 {α : Type} :
    (∀ (x : α), unravel_batch (Batch.atom x) = Except.ok (x, none, none)) ∧
    (∀ (a b : α), unravel_batch (Batch.seq [a, b]) = Except.ok (a, some b, none)) ∧
    (∀ (xs : List α) (h : 2 < xs.length),
      unravel_batch (Batch.seq xs) =
        Except.ok (xs.get ⟨0, by omega⟩, some (xs.get ⟨1, by omega⟩),
          some (xs.get ⟨xs.length - 1, by omega⟩))) ∧
    (∀ (xs : List α), xs.length < 2 →
      unravel_batch (Batch.seq xs) = Except.error Exc.indexError) := by
  refine ⟨fun x => rfl, fun a b => rfl, ?_, ?_⟩
  · intro xs h
    have h0 : pyIndex xs (0 : Int) = Except.ok (xs.get ⟨0, by omega⟩) := by
      simpa using pyIndex_ofNat xs 0 (by omega)
    have h1 : pyIndex xs (1 : Int) = Except.ok (xs.get ⟨1, by omega⟩) := by
      simpa using pyIndex_ofNat xs 1 (by omega)
    simp only [unravel_batch]
    rw [h0, h1, pyIndex_neg_one xs (by omega)]
    simp only [if_pos h]
  · intro xs hlen
    rcases xs with _ | ⟨a, _ | ⟨b, t⟩⟩
    · rfl
    · rfl
    · simp at hlen
      omega

/-- C8 witness: concrete batches of each shape. -/
theorem claim_C8_witness :
    unravel_batch (Batch.atom (7 : Nat)) = Except.ok (7, none, none) ∧
    unravel_batch (Batch.seq [(1 : Nat), 2]) = Except.ok (1, some 2, none) ∧
    unravel_batch (Batch.seq [(10 : Nat), 20, 30, 40]) =
      Except.ok (10, some 20, some 40) ∧
    unravel_batch (Batch.seq [(5 : Nat)]) = Except.error Exc.indexError :=
  ⟨(claim_C8 (α := Nat)).1 7, (claim_C8 (α := Nat)).2.1 1 2,
    ((claim_C8 (α := Nat)).2.2.1 [10, 20, 30, 40] (by decide)).trans (by decide),
    (claim_C8 (α := Nat)).2.2.2 [5] (by decide)⟩

/-- C9: without validation data, an enabled EarlyStopping or ModelCheckpoint
whose monitor starts with val_ has those 4 characters stripped (mutating the
cfg) and a UserWarning recorded; with validation data, or for monitors not
starting with val_, the monitors are unchanged. -/
theorem claim_C9 (cfg : TrainCfg) (cbs : List CallbackKind) (v : Bool)
    (ext : String) :
    (v = false → cfg.EarlyStopping.enabled = true →
      pyStartsWith cfg.EarlyStopping.monitor "val_" = true →
      ((setup_callbacks cfg cbs v ext).1.EarlyStopping.monitor =
          strDrop cfg.EarlyStopping.monitor 4 ∧
        WarnEv.monitorFallback CallbackKind.earlyStopping cfg.EarlyStopping.monitor
            (strDrop cfg.EarlyStopping.monitor 4) ∈
          (setup_callbacks cfg cbs v ext).2.2)) ∧
    (v = false → cfg.ModelCheckpoint.enabled = true →
      pyStartsWith cfg.ModelCheckpoint.monitor "val_" = true →
      ((setup_callbacks cfg cbs v ext).1.ModelCheckpoint.monitor =
          strDrop cfg.ModelCheckpoint.monitor 4 ∧
        WarnEv.monitorFallback CallbackKind.modelCheckpoint cfg.ModelCheckpoint.monitor
            (strDrop cfg.ModelCheckpoint.monitor 4) ∈
          (setup_callbacks cfg cbs v ext).2.2)) ∧
    (v = true →
      (setup_callbacks cfg cbs v ext).1.EarlyStopping.monitor =
          cfg.EarlyStopping.monitor ∧
        (setup_callbacks cfg cbs v ext).1.ModelCheckpoint.monitor =
          cfg.ModelCheckpoint.monitor) ∧
    (pyStartsWith cfg.EarlyStopping.monitor "val_" = false →
      (setup_callbacks cfg cbs v ext).1.EarlyStopping.monitor =
        cfg.EarlyStopping.monitor) ∧
    (pyStartsWith cfg.ModelCheckpoint.monitor "val_" = false →
      (setup_callbacks cfg cbs v ext).1.ModelCheckpoint.monitor =
        cfg.ModelCheckpoint.monitor) := by
  have hes : (setup_callbacks cfg cbs v ext).1.EarlyStopping =
      (monitorFallbackEs v cfg.EarlyStopping).1 := rfl
  have hwarn : (setup_callbacks cfg cbs v ext).2.2 =
      (monitorFallbackCkpt v cfg.ModelCheckpoint).2 ++
        (monitorFallbackEs v cfg.EarlyStopping).2 := rfl
  have hck : (setup_callbacks cfg cbs v ext).1.ModelCheckpoint.monitor =
      (monitorFallbackCkpt v cfg.ModelCheckpoint).1.monitor := by
    simp only [setup_callbacks]
    split
    · rw [appendExt_monitor]
    · rfl
  refine ⟨?_, ?_, ?_, ?_, ?_⟩
  · intro hv he hsw
    subst hv
    rw [hes, hwarn]
    constructor
    · simp [monitorFallbackEs, he, hsw]
    · simp [monitorFallbackEs, he, hsw, List.mem_append]
  · intro hv he hsw
    subst hv
    rw [hck, hwarn]
    constructor
    · simp [monitorFallbackCkpt, he, hsw]
    · simp [monitorFallbackCkpt, he, hsw, List.mem_append]
  · intro hv
    subst hv
    rw [hes, hck]
    constructor
    · simp [monitorFallbackEs]
    · simp [monitorFallbackCkpt]
  · intro hsw
    rw [hes]
    simp [monitorFallbackEs, hsw]
  · intro hsw
    rw [hck]
    simp [monitorFallbackCkpt, hsw]

/-- C9 witness: the fallback on a concrete configuration with val_loss
monitors and no validation data. -/
theorem claim_C9_witness :
    (setup_callbacks
        { cfgPlain with
            EarlyStopping := { enabled := true, monitor := "val_loss" } }
        [CallbackKind.history] false ".h5").1.EarlyStopping.monitor = "loss" ∧
    WarnEv.monitorFallback CallbackKind.earlyStopping "val_loss" "loss" ∈
      (setup_callbacks
        { cfgPlain with
            EarlyStopping := { enabled := true, monitor := "val_loss" } }
        [CallbackKind.history] false ".h5").2.2 := by
  have h := (claim_C9
    { cfgPlain with EarlyStopping := { enabled := true, monitor := "val_loss" } }
    [CallbackKind.history] false ".h5").1 rfl rfl (by decide)
  exact ⟨h.1.trans (by decide), by
    have h2 := h.2
    rw [show (strDrop "val_loss" 4) = "loss" from by decide] at h2
    exact h2⟩

/-- C10: with cfg.train.verbose greater than 2 and at least one epoch, the
per-epoch reporting branch evaluates the unbound name epochs, so train
raises NameError at the first end-of-epoch report — after on_epoch_end(0)
but printing no progress and reaching no on_train_end. -/
theorem claim_C10 (m : PyModel) (cfg : TrainCfg) (env : TrainEnv)
    (v : Bool) (ext : String)
    (hv : 2 < cfg.verbose) (he : 0 < cfg.epochs) (hs : env.stepRaises 0 = false) :
    (train (some m) cfg env v ext).result = Except.error (Exc.nameError "epochs") ∧
    Ev.onEpochEnd 0 ∈ (train (some m) cfg env v ext).events ∧
    (∀ e, Ev.epochHeaderPrint e ∉ (train (some m) cfg env v ext).events) ∧
    (∀ n, Ev.progbarUpdate n ∉ (train (some m) cfg env v ext).events) ∧
    Ev.onTrainEnd ∉ (train (some m) cfg env v ext).events := by
  obtain ⟨k, hk⟩ : ∃ k, cfg.epochs = k + 1 := ⟨cfg.epochs - 1, by omega⟩
  have hv0 : 0 < cfg.verbose := by omega
  have hrun : runEpochs (setup_callbacks cfg [CallbackKind.history] v ext).1 env 0
      (setup_callbacks cfg [CallbackKind.history] v ext).1.epochs =
      ([Ev.onEpochBegin 0, Ev.onTrainBatchBegin 0,
        Ev.onTrainBatchEnd env.numBatches, Ev.onEpochEnd 0],
       LoopExit.raised (Exc.nameError "epochs")) := by
    rw [setup_callbacks_epochs, hk]
    simp only [runEpochs]
    rw [epochBody_nameError _ env 0 (by rw [setup_callbacks_verbose]; exact hv) hs]
  refine ⟨?_, ?_, ?_, ?_, ?_⟩
  · simp only [train]
    rw [hrun]
  · simp only [train]
    rw [hrun, setup_callbacks_verbose, if_pos hv0]
    simp
  · intro e
    simp only [train]
    rw [hrun, setup_callbacks_verbose, if_pos hv0]
    cases hf : ((setup_callbacks cfg [CallbackKind.history] v ext).1.ModelCheckpoint.enabled &&
        (setup_callbacks cfg [CallbackKind.history] v ext).1.ModelCheckpoint.remove_weights) <;>
      simp [hf]
  · intro n
    simp only [train]
    rw [hrun, setup_callbacks_verbose, if_pos hv0]
    cases hf : ((setup_callbacks cfg [CallbackKind.history] v ext).1.ModelCheckpoint.enabled &&
        (setup_callbacks cfg [CallbackKind.history] v ext).1.ModelCheckpoint.remove_weights) <;>
      simp [hf]
  · simp only [train]
    rw [hrun, setup_callbacks_verbose, if_pos hv0]
    cases hf : ((setup_callbacks cfg [CallbackKind.history] v ext).1.ModelCheckpoint.enabled &&
        (setup_callbacks cfg [CallbackKind.history] v ext).1.ModelCheckpoint.remove_weights) <;>
      simp [hf]

/-- C10 witness: the NameError crash at a concrete verbose-3 run. -/
theorem claim_C10_witness :
    (train (some modelT) { cfgPlain with verbose := 3 } envPlain false ".h5").result =
      Except.error (Exc.nameError "epochs") ∧
    Ev.onTrainEnd ∉
      (train (some modelT) { cfgPlain with verbose := 3 } envPlain false ".h5").events :=
  ⟨(claim_C10 modelT { cfgPlain with verbose := 3 } envPlain false ".h5"
      (by decide) (by decide) rfl).1,
    (claim_C10 modelT { cfgPlain with verbose := 3 } envPlain false ".h5"
      (by decide) (by decide) rfl).2.2.2.2⟩

